import Mathlib

/-!
Shallow embedding of the `rolebuttons` module of the pumpkin-fsi repository
(src/rolebuttons/module.py), together with models of the pieces of the
repository that module.py imports from its own package (`database.py`,
`objects.py`) but which are not present in the source tree; those models are
written from the specification and each carries a doc comment saying so.
-/

namespace RB

/-- Item kind discriminator (`DiscordType` in database.py): a grantable unit
is either a role or a channel-visibility toggle. -/
inductive DiscordType where
  | ROLE
  | CHANNEL
deriving DecidableEq, Repr

/-- Restriction kind (`RestrictionType` in database.py): ALLOW or DISALLOW. -/
inductive RestrictionType where
  | ALLOW
  | DISALLOW
deriving DecidableEq, Repr

/-- `RBItem`: one grantable unit owned by an Option. -/
structure RBItem where
  discord_id : Nat
  discord_type : DiscordType
deriving DecidableEq, Repr

/-- `RBOption`: one selectable button within a View. -/
structure RBOption where
  idx : Nat
  view_id : Nat
  label : String
  description : Option String
  emoji : Option String
  oid : Int
  items : List RBItem
deriving DecidableEq, Repr

/-- `RBRestriction`: an ALLOW/DISALLOW role rule on a View. -/
structure RBRestriction where
  role_id : Nat
  type : RestrictionType
deriving DecidableEq, Repr

/-- `RBMessage`: an AttachedMessage record linking a View to one live message. -/
structure RBMessage where
  channel_id : Nat
  message_id : Nat
deriving DecidableEq, Repr

/-- `RBView`: a persisted Menu with its child collections. -/
structure RBView where
  idx : Nat
  guild_id : Nat
  unique : Bool
  options : List RBOption
  restrictions : List RBRestriction
  messages : List RBMessage
deriving DecidableEq, Repr

/-- Modelled from the spec: `RBView.is_permitted` lives in the package's
`database.py`, which is not under src/.  Spec §4.2: DISALLOW always wins if
any of the user's roles intersects the DISALLOW set; otherwise if the ALLOW
set is non-empty, permitted iff the user's roles intersect it; if the ALLOW
set is empty, permitted by default (deny first, then allow-if-present,
else open). -/
def is_permitted (view : RBView) (user_roles : List Nat) : Bool :=
  if view.restrictions.any
      (fun r => r.type == RestrictionType.DISALLOW && user_roles.contains r.role_id) then
    false
  else if (view.restrictions.filter (fun r => r.type == RestrictionType.ALLOW)).isEmpty then
    true
  else
    view.restrictions.any
      (fun r => r.type == RestrictionType.ALLOW && user_roles.contains r.role_id)

/-- C2: `is_permitted` implements the deny-first two-list policy: it is true
exactly when no user role is in the DISALLOW set and, whenever the ALLOW set
is non-empty, some user role is in the ALLOW set (so an empty ALLOW set is
open by default and DISALLOW wins over ALLOW). -/
theorem C2_is_permitted_policy (view : RBView) (user_roles : List Nat) :
    is_permitted view user_roles = true ↔
      ((∀ r ∈ view.restrictions,
          r.type = RestrictionType.DISALLOW → r.role_id ∉ user_roles) ∧
        ((∃ r ∈ view.restrictions, r.type = RestrictionType.ALLOW) →
          ∃ r ∈ view.restrictions,
            r.type = RestrictionType.ALLOW ∧ r.role_id ∈ user_roles)) := by
  unfold is_permitted
  split
  · next hdis =>
    simp only [Bool.false_eq_true, false_iff, not_and]
    intro hno
    simp only [List.any_eq_true, Bool.and_eq_true, beq_iff_eq,
      List.elem_iff] at hdis
    obtain ⟨r, hr, ht, hmem⟩ := hdis
    exact absurd hmem (hno r hr ht)
  · next hdis =>
    simp only [List.any_eq_true, Bool.and_eq_true, beq_iff_eq,
      List.elem_iff, not_exists, not_and] at hdis
    split
    · next hemp =>
      simp only [true_iff]
      constructor
      · intro r hr ht
        exact hdis r hr ht
      · intro ⟨r, hr, ht⟩
        rw [List.isEmpty_iff, List.filter_eq_nil_iff] at hemp
        exact absurd (by simpa using ht) (by simpa using hemp r hr)
    · next hemp =>
      simp only [List.any_eq_true, Bool.and_eq_true, beq_iff_eq,
        List.elem_iff]
      constructor
      · intro ⟨r, hr, ht, hmem⟩
        refine ⟨fun s hs hst => hdis s hs hst, fun _ => ⟨r, hr, ht, hmem⟩⟩
      · intro ⟨_, hall⟩
        rw [List.isEmpty_iff, List.filter_eq_nil_iff] at hemp
        push_neg at hemp
        obtain ⟨s, hs, hst⟩ := hemp
        obtain ⟨r, hr, ht, hmem⟩ := hall ⟨s, hs, by simpa using hst⟩
        exact ⟨r, hr, ht, hmem⟩

/-- The platform-level key of an Item: its kind together with the external
object id it grants. -/
def itemKey (i : RBItem) : DiscordType × Nat := (i.discord_type, i.discord_id)

/-- A user's live platform state: the set (as a list of keys) of roles held
and channels visible. -/
abbrev Held := List (DiscordType × Nat)

/-- Whether the user currently holds the grantable unit of item `i`. -/
def holdsItem (held : Held) (i : RBItem) : Bool := held.contains (itemKey i)

/-- Revoke every listed item from the user's platform state. -/
def revokeItems (held : Held) (items : List RBItem) : Held :=
  held.filter (fun k => !(items.any (fun i => itemKey i == k)))

/-- Grant every listed item to the user's platform state. -/
def grantItems (held : Held) (items : List RBItem) : Held :=
  held ++ (items.map itemKey).filter (fun k => !(held.contains k))

/-- The role ids a user holds, extracted from the platform state. -/
def heldRoles (held : Held) : List Nat :=
  held.filterMap (fun k => if k.1 = DiscordType.ROLE then some k.2 else none)

/-- The items of every Option of `view` other than the pressed one. -/
def otherItems (view : RBView) (opt : RBOption) : List RBItem :=
  ((view.options.filter (fun o => o.idx != opt.idx)).map (fun o => o.items)).flatten

/-- Modelled from the spec: the interaction callback of `RBViewUI` lives in
the package's `objects.py`, which is not under src/.  Spec §4.4: (1) reject
if `is_permitted` is false, no state change; (2) the target is the pressed
Option's Items; (3) if the Menu is unique, revoke every Item of every other
Option first; (4) toggle: if the user already held all Items of the pressed
Option the press is a revoke of those Items, otherwise a grant. -/
def press (view : RBView) (opt : RBOption) (held : Held) : Held :=
  if !(is_permitted view (heldRoles held)) then held
  else
    let held1 := if view.unique then revokeItems held (otherItems view opt) else held
    if opt.items.all (holdsItem held) then revokeItems held1 opt.items
    else grantItems held1 opt.items

/-- A sequence of presses by one user on one Menu, applied left to right. -/
def pressSeq (view : RBView) (presses : List RBOption) (held : Held) : Held :=
  presses.foldl (fun h o => press view o h) held

/-- An Option is active for a user when the user holds at least one of its
Items. -/
def isActive (held : Held) (o : RBOption) : Bool := o.items.any (holdsItem held)

/-- The Options of a Menu that are active for the user. -/
def activeOptions (view : RBView) (held : Held) : List RBOption :=
  view.options.filter (isActive held)

theorem mem_revokeItems {held : Held} {items : List RBItem} {k : DiscordType × Nat} :
    k ∈ revokeItems held items ↔ k ∈ held ∧ ∀ i ∈ items, itemKey i ≠ k := by
  simp [revokeItems, List.mem_filter, List.any_eq_true]

theorem mem_grantItems {held : Held} {items : List RBItem} {k : DiscordType × Nat} :
    k ∈ grantItems held items ↔ k ∈ held ∨ ∃ i ∈ items, itemKey i = k := by
  simp only [grantItems, List.mem_append, List.mem_filter, List.mem_map,
    Bool.not_eq_true', ← Bool.not_eq_true, List.elem_iff]
  constructor
  · rintro (h | ⟨⟨i, hi, rfl⟩, _⟩)
    · exact Or.inl h
    · exact Or.inr ⟨i, hi, rfl⟩
  · rintro (h | ⟨i, hi, rfl⟩)
    · exact Or.inl h
    · by_cases hk : itemKey i ∈ held
      · exact Or.inl hk
      · exact Or.inr ⟨⟨i, hi, rfl⟩, by simpa using hk⟩

/-- The sample non-unique Menu of the spec scenario: Option A carries the
single role 100. -/
def optA : RBOption := ⟨1, 1, "A", none, none, 0, [⟨100, DiscordType.ROLE⟩]⟩

/-- A non-unique Menu holding only `optA`, with no restrictions. -/
def viewNonUnique : RBView := ⟨1, 1, false, [optA], [], []⟩

/-- C3: toggle semantics of a press.  When permitted: if the user already
holds all Items of the pressed Option, the press revokes them (nothing new
is granted and afterwards none of the Option's Items are held); otherwise it
is a grant (afterwards all of the Option's Items are held).  Concretely, on
the non-unique Menu whose Option A holds role 100, pressing A twice from an
empty state first grants role 100 and then revokes it. -/
theorem C3_press_toggle (view : RBView) (opt : RBOption) (held : Held)
    (hperm : is_permitted view (heldRoles held) = true) :
    (opt.items.all (holdsItem held) = true →
      (∀ k ∈ press view opt held, k ∈ held) ∧
      ∀ i ∈ opt.items, itemKey i ∉ press view opt held) ∧
    (opt.items.all (holdsItem held) = false →
      ∀ i ∈ opt.items, itemKey i ∈ press view opt held) ∧
    pressSeq viewNonUnique [optA] [] = [(DiscordType.ROLE, 100)] ∧
    pressSeq viewNonUnique [optA, optA] [] = [] := by
  refine ⟨?_, ?_, by decide, by decide⟩
  · intro hall
    rw [press, hperm]
    simp only [Bool.not_true, Bool.false_eq_true, if_false, hall, if_true]
    constructor
    · intro k hk
      rcases mem_revokeItems.mp hk with ⟨hk1, -⟩
      cases hu : view.unique <;> simp only [hu, if_true, if_false] at hk1
      · exact hk1
      · exact (mem_revokeItems.mp hk1).1
    · intro i hi hmem
      exact (mem_revokeItems.mp hmem).2 i hi rfl
  · intro hall i hi
    rw [press, hperm]
    simp only [Bool.not_true, Bool.false_eq_true, if_false, hall, if_true]
    exact mem_grantItems.mpr (Or.inr ⟨i, hi, rfl⟩)

/-- Witness for C3 at a concrete input: the non-unique sample Menu with the
user already holding role 100, where the press is a revoke. -/
theorem C3_press_toggle_witness :
    (optA.items.all (holdsItem [(DiscordType.ROLE, 100)]) = true →
      (∀ k ∈ press viewNonUnique optA [(DiscordType.ROLE, 100)],
        k ∈ [(DiscordType.ROLE, 100)]) ∧
      ∀ i ∈ optA.items,
        itemKey i ∉ press viewNonUnique optA [(DiscordType.ROLE, 100)]) ∧
    (optA.items.all (holdsItem [(DiscordType.ROLE, 100)]) = false →
      ∀ i ∈ optA.items,
        itemKey i ∈ press viewNonUnique optA [(DiscordType.ROLE, 100)]) ∧
    pressSeq viewNonUnique [optA] [] = [(DiscordType.ROLE, 100)] ∧
    pressSeq viewNonUnique [optA, optA] [] = [] :=
  C3_press_toggle viewNonUnique optA [(DiscordType.ROLE, 100)] (by decide)

theorem mem_otherItems {view : RBView} {opt : RBOption} {i : RBItem} :
    i ∈ otherItems view opt ↔ ∃ o ∈ view.options, o.idx ≠ opt.idx ∧ i ∈ o.items := by
  simp only [otherItems, List.mem_flatten, List.mem_map, List.mem_filter]
  constructor
  · rintro ⟨l, ⟨o, ⟨ho, hne⟩, rfl⟩, hi⟩
    exact ⟨o, ho, by simpa using hne, hi⟩
  · rintro ⟨o, ho, hne, hi⟩
    exact ⟨o.items, ⟨o, ⟨ho, by simpa using hne⟩, rfl⟩, hi⟩

/-- The Options of a Menu have pairwise distinct ids (a Store invariant:
ids are process-wide unique). -/
def distinctOptionIdx (view : RBView) : Prop :=
  view.options.Pairwise (fun a b => a.idx ≠ b.idx)

/-- No two distinct Options of the Menu grant the same external unit. -/
def disjointOptionItems (view : RBView) : Prop :=
  view.options.Pairwise (fun a b => ∀ i ∈ a.items, ∀ j ∈ b.items, itemKey i ≠ itemKey j)

theorem distinctOptionIdx_forall {view : RBView} (h : distinctOptionIdx view)
    {a b : RBOption} (ha : a ∈ view.options) (hb : b ∈ view.options)
    (hne : a ≠ b) : a.idx ≠ b.idx :=
  (h.forall (fun _ _ hxy => hxy.symm)) ha hb hne

theorem disjointOptionItems_forall {view : RBView} (h : disjointOptionItems view)
    {a b : RBOption} (ha : a ∈ view.options) (hb : b ∈ view.options)
    (hne : a ≠ b) : ∀ i ∈ a.items, ∀ j ∈ b.items, itemKey i ≠ itemKey j := by
  have hsym : Symmetric
      (fun a b : RBOption => ∀ i ∈ a.items, ∀ j ∈ b.items, itemKey i ≠ itemKey j) := by
    intro x y hxy i hi j hj
    exact (hxy j hj i hi).symm
  exact (h.forall hsym) ha hb hne

theorem holdsItem_iff {held : Held} {i : RBItem} :
    holdsItem held i = true ↔ itemKey i ∈ held := by
  simp [holdsItem, List.elem_iff]

theorem length_le_one_of_all_eq {l : List RBOption} {a : RBOption}
    (hall : ∀ x ∈ l, x = a) (hpw : l.Pairwise (fun x y => x.idx ≠ y.idx)) :
    l.length ≤ 1 := by
  match l with
  | [] => simp
  | [x] => simp
  | x :: y :: t =>
    exfalso
    have hx := hall x (by simp)
    have hy := hall y (by simp)
    have := (List.pairwise_cons.mp hpw).1 y (by simp)
    rw [hx, hy] at this
    exact this rfl

/-- One permitted press on a unique Menu with disjoint Options leaves at most
one Option active (the pressed one, or none). -/
theorem press_active_le_one (view : RBView) (opt : RBOption) (held : Held)
    (hu : view.unique = true) (hidx : distinctOptionIdx view)
    (hdisj : disjointOptionItems view) (hopt : opt ∈ view.options) :
    is_permitted view (heldRoles held) = true →
    (activeOptions view (press view opt held)).length ≤ 1 := by
  intro hp
  rw [press, hp]
  simp only [Bool.not_true, Bool.false_eq_true, if_false, hu, if_true]
  have hidx_of : ∀ o ∈ view.options, o.idx = opt.idx → o = opt := by
    intro o ho heq
    by_contra hne
    exact distinctOptionIdx_forall hidx ho hopt hne heq
  cases hall : opt.items.all (holdsItem held)
  · -- grant branch: only the pressed Option can be active afterwards
    rw [if_neg (by simp)]
    set held' := grantItems (revokeItems held (otherItems view opt)) opt.items with hh
    have hinactive : ∀ o ∈ view.options, o ≠ opt → isActive held' o = false := by
      intro o ho hne
      by_contra hact
      rw [Bool.not_eq_false] at hact
      simp only [isActive, List.any_eq_true] at hact
      obtain ⟨i, hi, hhold⟩ := hact
      rw [holdsItem_iff] at hhold
      rw [hh] at hhold
      rcases mem_grantItems.mp hhold with hmem | ⟨j, hj, hkey⟩
      · rcases mem_revokeItems.mp hmem with ⟨-, hno⟩
        have hio : o.idx ≠ opt.idx := fun h => hne (hidx_of o ho h)
        exact hno i (mem_otherItems.mpr ⟨o, ho, hio, hi⟩) rfl
      · exact disjointOptionItems_forall hdisj hopt ho (fun h => hne h.symm) j hj i hi hkey
    have hall_eq : ∀ x ∈ activeOptions view held', x = opt := by
      intro x hx
      rcases List.mem_filter.mp hx with ⟨hxo, hxa⟩
      by_contra hne
      rw [hinactive x hxo hne] at hxa
      exact Bool.false_ne_true hxa
    exact length_le_one_of_all_eq hall_eq (List.Pairwise.filter _ hidx)
  · -- revoke branch: no Option of the Menu is active afterwards
    rw [if_pos rfl]
    set held' := revokeItems (revokeItems held (otherItems view opt)) opt.items with hh
    have hnone : ∀ o ∈ view.options, isActive held' o = false := by
      intro o ho
      by_contra hact
      rw [Bool.not_eq_false] at hact
      simp only [isActive, List.any_eq_true] at hact
      obtain ⟨i, hi, hhold⟩ := hact
      rw [holdsItem_iff] at hhold
      rw [hh] at hhold
      rcases mem_revokeItems.mp hhold with ⟨hmem, hno2⟩
      rcases mem_revokeItems.mp hmem with ⟨-, hno1⟩
      by_cases heq : o = opt
      · exact hno2 i (heq ▸ hi) rfl
      · have hio : o.idx ≠ opt.idx := fun h => heq (hidx_of o ho h)
        exact hno1 i (mem_otherItems.mpr ⟨o, ho, hio, hi⟩) rfl
    have : activeOptions view held' = [] := by
      rw [activeOptions, List.filter_eq_nil_iff]
      intro o ho
      rw [hnone o ho]
      exact Bool.false_ne_true
    rw [this]
    simp

theorem pressSeq_cons (view : RBView) (p : RBOption) (rest : List RBOption)
    (held : Held) :
    pressSeq view (p :: rest) held = pressSeq view rest (press view p held) := by
  simp [pressSeq]

/-- Option A of the degenerate unique Menu: carries role 100. -/
def optA2 : RBOption := ⟨1, 2, "A", none, none, 0, [⟨100, DiscordType.ROLE⟩]⟩

/-- Option B of the degenerate unique Menu: carries the same role 100. -/
def optB2 : RBOption := ⟨2, 2, "B", none, none, 0, [⟨100, DiscordType.ROLE⟩]⟩

/-- A unique Menu whose two Options share the external role 100. -/
def viewShared : RBView := ⟨2, 1, true, [optA2, optB2], [], []⟩

/-- C1 counterexample: on the unique Menu whose two Options both carry role
100, a user who starts with nothing and presses Option A once ends up
holding an Item of Option A and an Item of Option B — Items belonging to two
Options, so the claim as stated is false at this input. -/
theorem C1_counterexample :
    viewShared.unique = true ∧ optA2 ∈ viewShared.options ∧
    ¬ (activeOptions viewShared (pressSeq viewShared [optA2] [])).length ≤ 1 := by
  decide

/-- C1 (amended): for a unique Menu whose Options have distinct ids and
pairwise disjoint external items, after any sequence of presses by one user
on that Menu starting from a state with at most one active Option, the user
holds Items from at most one Option of that Menu. -/
theorem C1_unique_invariant (view : RBView) (presses : List RBOption) (held : Held)
    (hu : view.unique = true) (hidx : distinctOptionIdx view)
    (hdisj : disjointOptionItems view)
    (hpr : ∀ o ∈ presses, o ∈ view.options)
    (h0 : (activeOptions view held).length ≤ 1) :
    (activeOptions view (pressSeq view presses held)).length ≤ 1 := by
  induction presses generalizing held with
  | nil => simpa [pressSeq] using h0
  | cons p rest ih =>
    rw [pressSeq_cons]
    have hpmem : p ∈ view.options := hpr p (by simp)
    refine ih (press view p held) (fun o ho => hpr o (List.mem_cons_of_mem _ ho)) ?_
    cases hperm : is_permitted view (heldRoles held)
    · rw [press]
      simp only [hperm, Bool.not_false, if_true]
      exact h0
    · exact press_active_le_one view p held hu hidx hdisj hpmem hperm

/-- Witness for C1 (amended) at a concrete input: a unique Menu with two
disjoint single-role Options, a user pressing A then B from an empty state. -/
theorem C1_unique_invariant_witness :
    (activeOptions
      ⟨3, 1, true, [⟨1, 3, "A", none, none, 0, [⟨100, DiscordType.ROLE⟩]⟩,
        ⟨2, 3, "B", none, none, 0, [⟨200, DiscordType.ROLE⟩]⟩], [], []⟩
      (pressSeq
        ⟨3, 1, true, [⟨1, 3, "A", none, none, 0, [⟨100, DiscordType.ROLE⟩]⟩,
          ⟨2, 3, "B", none, none, 0, [⟨200, DiscordType.ROLE⟩]⟩], [], []⟩
        [⟨1, 3, "A", none, none, 0, [⟨100, DiscordType.ROLE⟩]⟩,
          ⟨2, 3, "B", none, none, 0, [⟨200, DiscordType.ROLE⟩]⟩] [])).length ≤ 1 :=
  C1_unique_invariant _ _ _ rfl (by unfold distinctOptionIdx; decide)
    (by unfold disjointOptionItems; decide) (by decide) (by decide)

/-- A live Discord message: its identifying triple, its author, and which
RoleButtons view (if any) is currently rendered on it. -/
structure DCMessage where
  guild_id : Nat
  channel_id : Nat
  message_id : Nat
  author_id : Nat
  attached_view : Option Nat
deriving DecidableEq, Repr

/-- The external chat platform as the engine sees it: the bot identity and
the set of live messages. -/
structure Platform where
  botUserId : Nat
  messages : List DCMessage
deriving DecidableEq, Repr

/-- `utils.discord.get_message`: resolve a live message by
(guild_id, channel_id, message_id); absence is an `Option`, not an error. -/
def get_message (p : Platform) (guild channel message : Nat) : Option DCMessage :=
  p.messages.find? (fun m =>
    m.guild_id == guild && m.channel_id == channel && m.message_id == message)

/-- `message.edit(view=...)`: replace the rendering handle carried by the
message with the given one (`none` strips it). -/
def editAttach (p : Platform) (guild channel message : Nat) (v : Option Nat) : Platform :=
  { p with
    messages := p.messages.map (fun m =>
      if m.guild_id == guild && m.channel_id == channel && m.message_id == message then
        { m with attached_view := v }
      else m) }

/-- Whether the live message with the given triple exists. -/
def found (p : Platform) (g c m : Nat) : Bool := (get_message p g c m).isSome

/-- The in-memory state of the `RoleButtons` cog: the persisted views
(the database), the registry `self.views` of rendering handles keyed by view
id (each handle is the snapshot it renders), and the platform. -/
structure CogState where
  db : List RBView
  views : List (Nat × RBView)
  platform : Platform
deriving DecidableEq, Repr

/-- The inner loop of `load_views` over one view's AttachedMessages:
re-attach the handle to each resolvable message, record a warning
(message_id, channel_id) for each unresolvable one, and continue. -/
def loadMsgsLoop (idx g : Nat) : List RBMessage → Platform → List (Nat × Nat) →
    Platform × List (Nat × Nat)
  | [], p, w => (p, w)
  | m :: rest, p, w =>
    if found p g m.channel_id m.message_id then
      loadMsgsLoop idx g rest (editAttach p g m.channel_id m.message_id (some idx)) w
    else
      loadMsgsLoop idx g rest p (w ++ [(m.message_id, m.channel_id)])

/-- The outer loop of `load_views` over all persisted views: build and
register a handle for each, then reconcile its messages. -/
def loadLoop : List RBView → List (Nat × RBView) → Platform → List (Nat × Nat) →
    List (Nat × RBView) × Platform × List (Nat × Nat)
  | [], vs, p, w => (vs, p, w)
  | v :: rest, vs, p, w =>
    let pw := loadMsgsLoop v.idx v.guild_id v.messages p w
    loadLoop rest (vs ++ [(v.idx, v)]) pw.1 pw.2

/-- `RoleButtons.load_views`: reset the registry, load all views from the
store, register a handle per view and reconcile every AttachedMessage,
returning the new state and the diagnostic warnings. -/
def load_views (st : CogState) : CogState × List (Nat × Nat) :=
  let r := loadLoop st.db [] st.platform []
  ({ db := st.db, views := r.1, platform := r.2.1 }, r.2.2)

/-- `RoleButtons._unload_views`: stop every registered handle and clear the
registry. -/
def unload_views (st : CogState) : CogState := { st with views := [] }

/-- `RoleButtons.rolebuttons_reload`: tear down all registered handles, then
run `load_views` again. -/
def reload (st : CogState) : CogState × List (Nat × Nat) :=
  load_views (unload_views st)

theorem found_editAttach (p : Platform) (g c mi : Nat) (v : Option Nat)
    (g' c' m' : Nat) : found (editAttach p g c mi v) g' c' m' = found p g' c' m' := by
  rw [found, found, get_message, get_message, editAttach]
  induction p.messages with
  | nil => rfl
  | cons m t ih =>
    simp only [List.map_cons, List.find?]
    by_cases hc : (m.guild_id == g && m.channel_id == c && m.message_id == mi) = true
    · rw [if_pos hc]
      by_cases hq : (m.guild_id == g' && m.channel_id == c' && m.message_id == m') = true
      · simp only [hq, if_pos]
        rfl
      · simp only at hq ⊢
        rw [Bool.not_eq_true] at hq
        simp only [hq]
        exact ih
    · rw [if_neg hc]
      by_cases hq : (m.guild_id == g' && m.channel_id == c' && m.message_id == m') = true
      · simp only [hq]
      · rw [Bool.not_eq_true] at hq
        simp only [hq]
        exact ih

theorem found_loadMsgsLoop (idx g : Nat) (msgs : List RBMessage) (p : Platform)
    (w : List (Nat × Nat)) (g' c' m' : Nat) :
    found (loadMsgsLoop idx g msgs p w).1 g' c' m' = found p g' c' m' := by
  induction msgs generalizing p w with
  | nil => rfl
  | cons m rest ih =>
    rw [loadMsgsLoop]
    by_cases hf : found p g m.channel_id m.message_id = true
    · rw [if_pos hf, ih, found_editAttach]
    · rw [if_neg hf, ih]

theorem warnings_mono_loadMsgsLoop (idx g : Nat) (msgs : List RBMessage)
    (p : Platform) (w : List (Nat × Nat)) (k : Nat × Nat) (hk : k ∈ w) :
    k ∈ (loadMsgsLoop idx g msgs p w).2 := by
  induction msgs generalizing p w with
  | nil => exact hk
  | cons m rest ih =>
    rw [loadMsgsLoop]
    by_cases hf : found p g m.channel_id m.message_id = true
    · rw [if_pos hf]
      exact ih _ _ hk
    · rw [if_neg hf]
      exact ih _ _ (List.mem_append_left _ hk)

theorem warning_of_missing_loadMsgsLoop (idx g : Nat) (msgs : List RBMessage)
    (p : Platform) (w : List (Nat × Nat)) (m : RBMessage) (hm : m ∈ msgs)
    (hnf : found p g m.channel_id m.message_id = false) :
    (m.message_id, m.channel_id) ∈ (loadMsgsLoop idx g msgs p w).2 := by
  induction msgs generalizing p w with
  | nil => cases hm
  | cons m0 rest ih =>
    rw [loadMsgsLoop]
    rcases List.mem_cons.mp hm with rfl | hm'
    · rw [if_neg (by rw [hnf]; exact Bool.false_ne_true)]
      exact warnings_mono_loadMsgsLoop _ _ _ _ _ _ (List.mem_append_right _ (by simp))
    · by_cases hf : found p g m0.channel_id m0.message_id = true
      · rw [if_pos hf]
        exact ih _ _ hm' (by rw [found_editAttach]; exact hnf)
      · rw [if_neg hf]
        exact ih _ _ hm' hnf

theorem found_loadLoop (db : List RBView) (vs : List (Nat × RBView)) (p : Platform)
    (w : List (Nat × Nat)) (g' c' m' : Nat) :
    found (loadLoop db vs p w).2.1 g' c' m' = found p g' c' m' := by
  induction db generalizing vs p w with
  | nil => rfl
  | cons v rest ih =>
    rw [loadLoop]
    rw [ih, found_loadMsgsLoop]

theorem warnings_mono_loadLoop (db : List RBView) (vs : List (Nat × RBView))
    (p : Platform) (w : List (Nat × Nat)) (k : Nat × Nat) (hk : k ∈ w) :
    k ∈ (loadLoop db vs p w).2.2 := by
  induction db generalizing vs p w with
  | nil => exact hk
  | cons v rest ih =>
    rw [loadLoop]
    exact ih _ _ _ (warnings_mono_loadMsgsLoop _ _ _ _ _ _ hk)

theorem warning_of_missing_loadLoop (db : List RBView) (vs : List (Nat × RBView))
    (p : Platform) (w : List (Nat × Nat)) (v : RBView) (m : RBMessage)
    (hv : v ∈ db) (hm : m ∈ v.messages)
    (hnf : found p v.guild_id m.channel_id m.message_id = false) :
    (m.message_id, m.channel_id) ∈ (loadLoop db vs p w).2.2 := by
  induction db generalizing vs p w with
  | nil => cases hv
  | cons v0 rest ih =>
    rw [loadLoop]
    rcases List.mem_cons.mp hv with rfl | hv'
    · exact warnings_mono_loadLoop _ _ _ _ _
        (warning_of_missing_loadMsgsLoop _ _ _ _ _ _ hm hnf)
    · exact ih _ _ _ hv' (by rw [found_loadMsgsLoop]; exact hnf)

theorem views_loadLoop (db : List RBView) (vs : List (Nat × RBView)) (p : Platform)
    (w : List (Nat × Nat)) :
    (loadLoop db vs p w).1 = vs ++ db.map (fun v => (v.idx, v)) := by
  induction db generalizing vs p w with
  | nil => simp [loadLoop]
  | cons v rest ih =>
    rw [loadLoop, ih]
    simp

/-- C4: during reconciliation, every AttachedMessage whose live message
cannot be resolved by (guild_id, channel_id, message_id) produces a
diagnostic warning naming it; the run still registers a handle for every
persisted view, and no AttachedMessage record is deleted (the database is
unchanged). -/
theorem C4_load_views_missing_message (st : CogState) (v : RBView) (m : RBMessage)
    (hv : v ∈ st.db) (hm : m ∈ v.messages)
    (hnf : found st.platform v.guild_id m.channel_id m.message_id = false) :
    (m.message_id, m.channel_id) ∈ (load_views st).2 ∧
    (load_views st).1.db = st.db ∧
    (load_views st).1.views.map Prod.fst = st.db.map RBView.idx := by
  refine ⟨warning_of_missing_loadLoop _ _ _ _ _ _ hv hm hnf, rfl, ?_⟩
  show (loadLoop st.db [] st.platform []).1.map Prod.fst = _
  rw [views_loadLoop]
  simp

/-- Witness for C4 at a concrete input: one view with one AttachedMessage
and a platform holding no messages at all. -/
theorem C4_load_views_missing_message_witness :
    ((7, 9) ∈ (load_views ⟨[⟨5, 1, false, [], [], [⟨9, 7⟩]⟩], [], ⟨42, []⟩⟩).2 ∧
    (load_views ⟨[⟨5, 1, false, [], [], [⟨9, 7⟩]⟩], [], ⟨42, []⟩⟩).1.db =
      [⟨5, 1, false, [], [], [⟨9, 7⟩]⟩] ∧
    (load_views ⟨[⟨5, 1, false, [], [], [⟨9, 7⟩]⟩], [], ⟨42, []⟩⟩).1.views.map Prod.fst =
      [⟨5, 1, false, [], [], [⟨9, 7⟩]⟩].map RBView.idx) :=
  C4_load_views_missing_message ⟨[⟨5, 1, false, [], [], [⟨9, 7⟩]⟩], [], ⟨42, []⟩⟩
    ⟨5, 1, false, [], [], [⟨9, 7⟩]⟩ ⟨9, 7⟩ (by simp) (by simp) (by decide)

/-- C5: reconciliation through the moderator reload operation is idempotent
on the registered handles and on the AttachedMessage records: a second
reload yields exactly the registry of the first (one handle per persisted
view, so no duplication), the database rows are untouched, the registry
after a reload is exactly the persisted views (so no stale handle survives),
and whatever was registered before the reload has no influence on its
outcome. -/
theorem C5_reload_idempotent (st : CogState) (vs : List (Nat × RBView)) :
    (reload (reload st).1).1.views = (reload st).1.views ∧
    (reload (reload st).1).1.db = st.db ∧
    (reload st).1.views = st.db.map (fun v => (v.idx, v)) ∧
    (reload { st with views := vs }).1.views = (reload st).1.views := by
  have hviews : ∀ t : CogState, (reload t).1.views = t.db.map (fun v => (v.idx, v)) := by
    intro t
    show (loadLoop t.db [] t.platform []).1 = _
    rw [views_loadLoop]
    simp
  have hdb : ∀ t : CogState, (reload t).1.db = t.db := fun _ => rfl
  refine ⟨?_, ?_, hviews st, ?_⟩
  · rw [hviews, hviews, hdb]
  · rw [hdb, hdb]
  · rw [hviews, hviews]

/-- The user-facing outcome a command reports back (the translated reply
strings of module.py, abstracted to their parameters). -/
inductive Reply where
  | notLoaded (view_id : Nat)
  | viewNotFound (view_id : Nat)
  | messageNotFound (message_id : Nat)
  | authorNotBot
  | attached (view_id message_id : Nat)
  | noViewAttached (message_id : Nat)
  | detachedAnyway (message_id : Nat)
  | detached (message_id : Nat)
  | optionNotFound (id : Nat)
  | itemNotFound (option_id : Nat)
  | restrictionNotFound (view_id : Nat)
  | restrictionRemoved (view_id : Nat)
  | deleted
  | timedOut
  | aborted
  | optionEdited (option_id : Nat)
  | created (view_id : Nat)
deriving DecidableEq, Repr

/-- The command context: the guild and channel the command was issued in. -/
structure Ctx where
  guild_id : Nat
  channel_id : Nat
deriving DecidableEq, Repr

/-- Registry lookup, `self.views[view_id]` guarded by
`view_id in self.views`. -/
def lookupView (vs : List (Nat × RBView)) (id : Nat) : Option RBView :=
  (vs.find? (fun e => e.1 == id)).map Prod.snd

/-- Modelled from the spec: `RBView.add_message` lives in the package's
`database.py`, which is not under src/.  Spec §4.5: attach records an
AttachedMessage under the Menu. -/
def add_message (db : List RBView) (view_idx channel_id message_id : Nat) : List RBView :=
  db.map (fun v =>
    if v.idx == view_idx then
      { v with messages := v.messages ++ [⟨channel_id, message_id⟩] }
    else v)

/-- `RoleButtons.rolebuttons_message_attach`: attach a View to a message;
channel id 0 means the command's own channel; requires the view to be in the
registry, to belong to the guild, the message to exist and to be authored by
the bot. -/
def message_attach (st : CogState) (ctx : Ctx) (channel_id message_id view_id : Nat) :
    CogState × Reply :=
  let channel_id := if channel_id == 0 then ctx.channel_id else channel_id
  match lookupView st.views view_id with
  | none => (st, .notLoaded view_id)
  | some vw =>
    if vw.guild_id != ctx.guild_id then (st, .viewNotFound view_id)
    else
      match get_message st.platform ctx.guild_id channel_id message_id with
      | none => (st, .messageNotFound message_id)
      | some msg =>
        if msg.author_id != st.platform.botUserId then (st, .authorNotBot)
        else
          ({ st with
             db := add_message st.db vw.idx channel_id message_id,
             platform :=
               editAttach st.platform ctx.guild_id channel_id message_id (some vw.idx) },
            .attached vw.idx message_id)

/-- Remove the first element satisfying `p` (Python `list.remove` of an
object singled out beforehand). -/
def eraseFirstP (p : α → Bool) : List α → List α
  | [] => []
  | x :: xs => if p x then xs else x :: eraseFirstP p xs

/-- Modelled from the spec: `RBMessage.get` lives in the package's
`database.py`, which is not under src/.  It resolves an AttachedMessage
record by message id, together with its owning View (`rbmessage.rbview`). -/
def findAttached : List RBView → Nat → Option (RBView × RBMessage)
  | [], _ => none
  | v :: rest, mid =>
    match v.messages.find? (fun m => m.message_id == mid) with
    | some m => some (v, m)
    | none => findAttached rest mid

/-- Modelled from the spec: `RBView.remove_message` lives in the package's
`database.py`, which is not under src/.  Spec §4.5/§3: detach destroys the
AttachedMessage record under the Menu. -/
def remove_message (db : List RBView) (view_idx message_id : Nat) : List RBView :=
  db.map (fun v =>
    if v.idx == view_idx then
      { v with messages := eraseFirstP (fun m => m.message_id == message_id) v.messages }
    else v)

/-- `RoleButtons.rolebuttons_message_detach`: remove the AttachedMessage
record; if the live message is still reachable also strip the handle from
it, otherwise report that it was detached anyway. -/
def message_detach (st : CogState) (ctx_guild message_id : Nat) : CogState × Reply :=
  match findAttached st.db message_id with
  | none => (st, .noViewAttached message_id)
  | some (v, rbm) =>
    let db1 := remove_message st.db v.idx message_id
    match get_message st.platform ctx_guild rbm.channel_id message_id with
    | none => ({ st with db := db1 }, .detachedAnyway message_id)
    | some _ =>
      ({ st with
         db := db1,
         platform := editAttach st.platform ctx_guild rbm.channel_id message_id none },
        .detached message_id)

/-- `RoleButtons.rolebuttons_create`; the body is `RBView.create` of the
package's `database.py`, which is not under src/, modelled from the spec:
the Store creates an empty Menu under a fresh id of its choosing (passed
here as `newIdx`) and the registry is not touched. -/
def rolebuttons_create (st : CogState) (guild : Nat) (uq : Bool) (newIdx : Nat) :
    CogState × Reply :=
  ({ st with db := st.db ++ [⟨newIdx, guild, uq, [], [], []⟩] }, .created newIdx)

/-- Modelled from the spec: `RBView.get` lives in the package's
`database.py`, which is not under src/.  Spec §4.1: `get(guild_id, id)`
fails softly (absence, not an error) when not found. -/
def RBView.get (db : List RBView) (guild idx : Nat) : Option RBView :=
  db.find? (fun v => v.guild_id == guild && v.idx == idx)

/-- The `role` argument of the restriction remove command: a resolved
`discord.Role` or a plain integer id. -/
inductive RoleArg where
  | role (id : Nat)
  | intArg (id : Nat)
deriving DecidableEq, Repr

/-- `role.id` for a resolved role, the integer itself otherwise. -/
def roleArgId : RoleArg → Nat
  | .role i => i
  | .intArg i => i

/-- `RoleButtons.rolebuttons_restriction_remove`: pick the first restriction
of the View whose `role_id` equals the given role (its ALLOW/DISALLOW type
is not consulted) and remove it; `RBView.remove_restriction` of the missing
`database.py` is modelled from the spec as destroying that record. -/
def restriction_remove (st : CogState) (ctx_guild view_id : Nat) (role : RoleArg) :
    CogState × Reply :=
  match RBView.get st.db ctx_guild view_id with
  | none => (st, .viewNotFound view_id)
  | some view =>
    let role_id := roleArgId role
    match view.restrictions.find? (fun r => r.role_id == role_id) with
    | none => (st, .restrictionNotFound view_id)
    | some _ =>
      ({ st with
          db := st.db.map (fun w =>
            if w.idx == view.idx then
              { w with restrictions :=
                  eraseFirstP (fun r => r.role_id == role_id) w.restrictions }
            else w) },
        .restrictionRemoved view_id)

/-- The guild as the item delete command sees it: its id and the ids of its
roles and channels (for `discord.utils.get(ctx.guild.roles / .channels)`). -/
structure GuildCtx where
  guild_id : Nat
  roles : List Nat
  channels : List Nat
deriving DecidableEq, Repr

/-- The `dc_item` argument of the item delete command, after the command
framework resolved it: a role, a channel, or a plain integer. -/
inductive DCItemArg where
  | role (id : Nat)
  | channel (id : Nat)
  | intArg (id : Nat)
deriving DecidableEq, Repr

/-- A Python runtime error escaping the command callback. -/
inductive PyError where
  | attributeError
deriving DecidableEq, Repr

/-- Attribute access `dc_item.id`: roles and channels have an `id`, a plain
`int` does not — accessing it raises `AttributeError`. -/
def dcItemDotId : DCItemArg → Except PyError Nat
  | .role i => .ok i
  | .channel i => .ok i
  | .intArg _ => .error .attributeError

/-- The value used as `dc_item_id` after the int branch. -/
def dcItemId : DCItemArg → Nat
  | .role i => i
  | .channel i => i
  | .intArg i => i

/-- Modelled from the spec: `RBOption.get` lives in the package's
`database.py`, which is not under src/.  Spec §4.1: a guild-scoped Store
getter failing softly on absence. -/
def RBOption.get (db : List RBView) (guild oid : Nat) : Option RBOption :=
  (((db.filter (fun v => v.guild_id == guild)).map (fun v => v.options)).flatten).find?
    (fun o => o.idx == oid)

/-- `item.delete` inside the confirmed branch of the item delete command:
destroy the selected Item row (modelled from the spec for the Store part). -/
def delete_item (db : List RBView) (opt_idx did : Nat) : List RBView :=
  db.map (fun v =>
    { v with options := v.options.map (fun o =>
        if o.idx == opt_idx then
          { o with items := eraseFirstP (fun it => it.discord_id == did) o.items }
        else o) })

/-- `RoleButtons.rolebuttons_item_remove` (the `item delete` command).
Faithful to module.py including the absent-Option branch, whose reply is
formatted with `dc_item.id`; `confirm` is the moderator's answer to the
confirmation prompt (`none` = timed out). -/
def rolebuttons_item_remove (st : CogState) (g : GuildCtx) (option_id : Nat)
    (dc_item : DCItemArg) (confirm : Option Bool) : Except PyError (CogState × Reply) :=
  match RBOption.get st.db g.guild_id option_id with
  | none =>
    match dcItemDotId dc_item with
    | .error e => .error e
    | .ok iid => .ok (st, .optionNotFound iid)
  | some opt =>
    let dc_item :=
      match dc_item with
      | .intArg n =>
        if g.roles.contains n then .role n
        else if g.channels.contains n then .channel n
        else .intArg n
      | x => x
    let dc_item_id := dcItemId dc_item
    let items := opt.items.filter (fun it => it.discord_id == dc_item_id)
    if items.length != 1 then .ok (st, .itemNotFound option_id)
    else
      match confirm with
      | none => .ok (st, .timedOut)
      | some false => .ok (st, .aborted)
      | some true => .ok ({ st with db := delete_item st.db opt.idx dc_item_id }, .deleted)

/-- `option.save()` after the edit command changed label, description and
emoji (Store write modelled from the spec). -/
def save_option (db : List RBView) (opt_idx : Nat) (label : String)
    (description emoji : Option String) : List RBView :=
  db.map (fun v =>
    { v with options := v.options.map (fun o =>
        if o.idx == opt_idx then
          { o with label := label, description := description, emoji := emoji }
        else o) })

/-- `RoleButtons.rolebuttons_option_edit`: edit an Option's parameters,
reporting not-found (with the option id) when the Option is absent. -/
def rolebuttons_option_edit (st : CogState) (guild option_id : Nat) (label : String)
    (emoji description : Option String) : CogState × Reply :=
  match RBOption.get st.db guild option_id with
  | none => (st, .optionNotFound option_id)
  | some opt =>
    ({ st with db := save_option st.db opt.idx label description emoji },
      .optionEdited opt.idx)

theorem countP_eraseFirstP {p : α → Bool} {l : List α} {a : α}
    (h : l.find? p = some a) : (eraseFirstP p l).countP p + 1 = l.countP p := by
  induction l with
  | nil => simp [List.find?] at h
  | cons x xs ih =>
    by_cases hx : p x = true
    · rw [eraseFirstP, if_pos hx, List.countP_cons_of_pos _ _ hx]
    · rw [List.find?_cons_of_neg _ hx] at h
      rw [eraseFirstP, if_neg hx, List.countP_cons_of_neg _ _ hx,
        List.countP_cons_of_neg _ _ hx]
      exact ih h

theorem length_eraseFirstP {p : α → Bool} {l : List α} {a : α}
    (h : l.find? p = some a) : (eraseFirstP p l).length + 1 = l.length := by
  induction l with
  | nil => simp [List.find?] at h
  | cons x xs ih =>
    by_cases hx : p x = true
    · rw [eraseFirstP, if_pos hx, List.length_cons]
    · rw [List.find?_cons_of_neg _ hx] at h
      rw [eraseFirstP, if_neg hx, List.length_cons, List.length_cons, ih h]

theorem mem_of_mem_eraseFirstP {p : α → Bool} {l : List α} {x : α}
    (h : x ∈ eraseFirstP p l) : x ∈ l := by
  induction l with
  | nil => cases h
  | cons y ys ih =>
    rw [eraseFirstP] at h
    by_cases hy : p y = true
    · rw [if_pos hy] at h
      exact List.mem_cons_of_mem _ h
    · rw [if_neg hy] at h
      rcases List.mem_cons.mp h with rfl | h'
      · exact List.mem_cons_self _ _
      · exact List.mem_cons_of_mem _ (ih h')

theorem findAttached_spec {db : List RBView} {mid : Nat} {v : RBView} {m : RBMessage}
    (h : findAttached db mid = some (v, m)) :
    v ∈ db ∧ v.messages.find? (fun x => x.message_id == mid) = some m := by
  induction db with
  | nil => cases h
  | cons v0 rest ih =>
    rw [findAttached] at h
    cases hf : v0.messages.find? (fun x => x.message_id == mid) with
    | some m0 =>
      rw [hf] at h
      injection h with h
      injection h with h1 h2
      subst h1
      subst h2
      exact ⟨List.mem_cons_self _ _, hf⟩
    | none =>
      rw [hf] at h
      obtain ⟨hmem, hfnd⟩ := ih h
      exact ⟨List.mem_cons_of_mem _ hmem, hfnd⟩

theorem find?_attach_aux {g c mi : Nat} {v : Option Nat} {msg : DCMessage} :
    ∀ {l : List DCMessage},
    (l.map (fun m =>
        if m.guild_id == g && m.channel_id == c && m.message_id == mi then
          { m with attached_view := v }
        else m)).find?
      (fun m => m.guild_id == g && m.channel_id == c && m.message_id == mi) = some msg →
    msg.attached_view = v := by
  intro l
  induction l with
  | nil => intro h; cases h
  | cons m t ih =>
    intro h
    rw [List.map_cons] at h
    by_cases hc : (m.guild_id == g && m.channel_id == c && m.message_id == mi) = true
    · rw [if_pos hc] at h
      rw [List.find?_cons_of_pos _ (by simpa using hc)] at h
      injection h with h
      subst h
      rfl
    · rw [if_neg hc] at h
      rw [@List.find?_cons_of_neg _
        (fun x => x.guild_id == g && x.channel_id == c && x.message_id == mi) m _ hc] at h
      exact ih h

theorem attached_view_editAttach {p : Platform} {g c mi : Nat} {v : Option Nat}
    {msg : DCMessage} (h : get_message (editAttach p g c mi v) g c mi = some msg) :
    msg.attached_view = v := by
  rw [get_message, editAttach] at h
  exact find?_attach_aux h

/-- The number of AttachedMessage records carrying `mid` across the whole
database. -/
def countMid : List RBView → Nat → Nat
  | [], _ => 0
  | v :: rest, mid => v.messages.countP (fun m => m.message_id == mid) + countMid rest mid

theorem remove_message_nomatch {db : List RBView} {vidx mid : Nat}
    (h : ∀ w ∈ db, w.idx ≠ vidx) : remove_message db vidx mid = db := by
  induction db with
  | nil => rfl
  | cons v0 rest ih =>
    rw [remove_message, List.map_cons, if_neg]
    · have : remove_message rest vidx mid = rest :=
        ih (fun w hw => h w (List.mem_cons_of_mem _ hw))
      rw [remove_message] at this
      rw [this]
    · simpa using h v0 (List.mem_cons_self _ _)

theorem countMid_remove_message {db : List RBView} {mid : Nat} {v : RBView}
    {m : RBMessage} (hnd : (db.map RBView.idx).Nodup) (hv : v ∈ db)
    (hf : v.messages.find? (fun x => x.message_id == mid) = some m) :
    countMid (remove_message db v.idx mid) mid + 1 = countMid db mid := by
  induction db with
  | nil => cases hv
  | cons v0 rest ih =>
    rw [List.map_cons, List.nodup_cons] at hnd
    rcases List.mem_cons.mp hv with rfl | hv'
    · rw [remove_message, List.map_cons, if_pos (by simp)]
      have hrest : remove_message rest v.idx mid = rest := by
        refine remove_message_nomatch (fun w hw heq => hnd.1 ?_)
        rw [← heq]
        exact List.mem_map_of_mem _ hw
      rw [remove_message] at hrest
      rw [hrest, countMid, countMid, Nat.add_right_comm,
        countP_eraseFirstP hf]
    · rw [remove_message, List.map_cons, countMid]
      have hne : (v0.idx == v.idx) = false := by
        simp only [beq_eq_false_iff_ne, ne_eq]
        intro heq
        apply hnd.1
        rw [heq]
        exact List.mem_map_of_mem _ hv'
      rw [hne]
      simp only [Bool.false_eq_true, if_false]
      have := ih hnd.2 hv'
      rw [remove_message] at this
      rw [countMid, Nat.add_assoc, this]

/-- C6: detaching an existing AttachedMessage record always removes exactly
that record, whether or not the live message is still reachable; when it is
unreachable the command still succeeds with the "detached anyway" reply, and
when it is reachable the rendering handle is also stripped from the live
message. -/
theorem C6_detach_always_removes (st : CogState) (g mid : Nat) (v : RBView)
    (rbm : RBMessage) (h : findAttached st.db mid = some (v, rbm))
    (hnd : (st.db.map RBView.idx).Nodup) :
    countMid (message_detach st g mid).1.db mid + 1 = countMid st.db mid ∧
    (get_message st.platform g rbm.channel_id mid = none →
      (message_detach st g mid).2 = .detachedAnyway mid) ∧
    ∀ msg, get_message st.platform g rbm.channel_id mid = some msg →
      (message_detach st g mid).2 = .detached mid ∧
      ∀ msg', get_message (message_detach st g mid).1.platform g rbm.channel_id mid =
        some msg' → msg'.attached_view = none := by
  obtain ⟨hv, hf⟩ := findAttached_spec h
  refine ⟨?_, ?_, ?_⟩
  · simp only [message_detach, h]
    cases hg : get_message st.platform g rbm.channel_id mid <;>
      simp only [hg] <;> exact countMid_remove_message hnd hv hf
  · intro hg
    simp only [message_detach, h, hg]
  · intro msg hg
    simp only [message_detach, h, hg]
    exact ⟨trivial, fun msg' h' => attached_view_editAttach h'⟩

/-- Witness for C6 at a concrete input: a single view attached to message 9
in channel 7 while the platform has no live messages (unreachable case). -/
theorem C6_detach_always_removes_witness :
    (countMid (message_detach ⟨[⟨5, 1, false, [], [], [⟨7, 9⟩]⟩], [], ⟨42, []⟩⟩ 1 9).1.db 9
        + 1 = countMid [⟨5, 1, false, [], [], [⟨7, 9⟩]⟩] 9 ∧
    (get_message (⟨42, []⟩ : Platform) 1 7 9 = none →
      (message_detach ⟨[⟨5, 1, false, [], [], [⟨7, 9⟩]⟩], [], ⟨42, []⟩⟩ 1 9).2 =
        .detachedAnyway 9) ∧
    ∀ msg, get_message (⟨42, []⟩ : Platform) 1 7 9 = some msg →
      (message_detach ⟨[⟨5, 1, false, [], [], [⟨7, 9⟩]⟩], [], ⟨42, []⟩⟩ 1 9).2 =
        .detached 9 ∧
      ∀ msg', get_message
          (message_detach ⟨[⟨5, 1, false, [], [], [⟨7, 9⟩]⟩], [], ⟨42, []⟩⟩ 1 9).1.platform
          1 7 9 = some msg' → msg'.attached_view = none) :=
  C6_detach_always_removes ⟨[⟨5, 1, false, [], [], [⟨7, 9⟩]⟩], [], ⟨42, []⟩⟩ 1 9
    ⟨5, 1, false, [], [], [⟨7, 9⟩]⟩ ⟨7, 9⟩ (by decide) (by decide)

/-- C7: attach records an AttachedMessage and pushes the rendering handle
only when the target message exists in the channel and was authored by the
bot: whenever the command changes any state at all such a message exists,
and with the view loaded and guild-matched, a missing message or a foreign
author makes the command report the failure and leave the state untouched;
when the guards pass, the record is added under the view and the handle
pushed. -/
theorem C7_attach_guards (st : CogState) (ctx : Ctx) (ch ch' mi vid : Nat)
    (hch : ch' = if ch == 0 then ctx.channel_id else ch) :
    ((message_attach st ctx ch mi vid).1 = st ∨
      ∃ msg, get_message st.platform ctx.guild_id ch' mi = some msg ∧
        msg.author_id = st.platform.botUserId) ∧
    (∀ vw, lookupView st.views vid = some vw → vw.guild_id = ctx.guild_id →
      get_message st.platform ctx.guild_id ch' mi = none →
      message_attach st ctx ch mi vid = (st, .messageNotFound mi)) ∧
    (∀ vw msg, lookupView st.views vid = some vw → vw.guild_id = ctx.guild_id →
      get_message st.platform ctx.guild_id ch' mi = some msg →
      msg.author_id ≠ st.platform.botUserId →
      message_attach st ctx ch mi vid = (st, .authorNotBot)) ∧
    (∀ vw msg, lookupView st.views vid = some vw → vw.guild_id = ctx.guild_id →
      get_message st.platform ctx.guild_id ch' mi = some msg →
      msg.author_id = st.platform.botUserId →
      (message_attach st ctx ch mi vid).1.db = add_message st.db vw.idx ch' mi ∧
      (message_attach st ctx ch mi vid).2 = .attached vw.idx mi ∧
      ∀ w ∈ st.db, w.idx = vw.idx →
        ∃ w' ∈ (message_attach st ctx ch mi vid).1.db,
          w'.idx = vw.idx ∧ (⟨ch', mi⟩ : RBMessage) ∈ w'.messages) := by
  refine ⟨?_, ?_, ?_, ?_⟩
  · cases hl : lookupView st.views vid with
    | none => exact Or.inl (by simp [message_attach, hl])
    | some vw =>
      by_cases hgd : vw.guild_id = ctx.guild_id
      · cases hg : get_message st.platform ctx.guild_id ch' mi with
        | none =>
          refine Or.inl ?_
          simp only [message_attach]
          rw [← hch]
          simp [hl, hgd, hg]
        | some msg =>
          by_cases hau : msg.author_id = st.platform.botUserId
          · exact Or.inr ⟨msg, rfl, hau⟩
          · refine Or.inl ?_
            simp only [message_attach]
            rw [← hch]
            simp [hl, hgd, hg, hau]
      · refine Or.inl ?_
        simp only [message_attach]
        rw [← hch]
        simp [hl, hgd]
  · intro vw hl hgd hg
    simp only [message_attach]
    rw [← hch]
    simp [hl, hgd, hg]
  · intro vw msg hl hgd hg hau
    simp only [message_attach]
    rw [← hch]
    simp [hl, hgd, hg, hau]
  · intro vw msg hl hgd hg hau
    have hdb : (message_attach st ctx ch mi vid).1.db = add_message st.db vw.idx ch' mi := by
      simp only [message_attach]
      rw [← hch]
      simp [hl, hgd, hg, hau]
    refine ⟨hdb, ?_, ?_⟩
    · simp only [message_attach]
      rw [← hch]
      simp [hl, hgd, hg, hau]
    · intro w hw hwidx
      refine ⟨{ w with messages := w.messages ++ [⟨ch', mi⟩] }, ?_, hwidx, by simp⟩
      rw [hdb, add_message]
      refine List.mem_map.mpr ⟨w, hw, ?_⟩
      rw [if_pos (by simpa using hwidx)]

/-- Witness for C7 at a concrete input: registry holding view 5 of guild 1,
a live bot-authored message (1,7,9), attach succeeds and the failure clauses
hold vacuously. -/
theorem C7_attach_guards_witness :
    ((message_attach
        ⟨[⟨5, 1, false, [], [], []⟩], [(5, ⟨5, 1, false, [], [], []⟩)],
          ⟨42, [⟨1, 7, 9, 42, none⟩]⟩⟩ ⟨1, 3⟩ 7 9 5).1 =
      ⟨[⟨5, 1, false, [], [], []⟩], [(5, ⟨5, 1, false, [], [], []⟩)],
        ⟨42, [⟨1, 7, 9, 42, none⟩]⟩⟩ ∨
      ∃ msg, get_message (⟨42, [⟨1, 7, 9, 42, none⟩]⟩ : Platform) 1 7 9 = some msg ∧
        msg.author_id = 42) ∧
    (∀ vw, lookupView [(5, ⟨5, 1, false, [], [], []⟩)] 5 = some vw → vw.guild_id = 1 →
      get_message (⟨42, [⟨1, 7, 9, 42, none⟩]⟩ : Platform) 1 7 9 = none →
      message_attach
        ⟨[⟨5, 1, false, [], [], []⟩], [(5, ⟨5, 1, false, [], [], []⟩)],
          ⟨42, [⟨1, 7, 9, 42, none⟩]⟩⟩ ⟨1, 3⟩ 7 9 5 =
        (⟨[⟨5, 1, false, [], [], []⟩], [(5, ⟨5, 1, false, [], [], []⟩)],
          ⟨42, [⟨1, 7, 9, 42, none⟩]⟩⟩, .messageNotFound 9)) ∧
    (∀ vw msg, lookupView [(5, ⟨5, 1, false, [], [], []⟩)] 5 = some vw →
      vw.guild_id = 1 →
      get_message (⟨42, [⟨1, 7, 9, 42, none⟩]⟩ : Platform) 1 7 9 = some msg →
      msg.author_id ≠ 42 →
      message_attach
        ⟨[⟨5, 1, false, [], [], []⟩], [(5, ⟨5, 1, false, [], [], []⟩)],
          ⟨42, [⟨1, 7, 9, 42, none⟩]⟩⟩ ⟨1, 3⟩ 7 9 5 =
        (⟨[⟨5, 1, false, [], [], []⟩], [(5, ⟨5, 1, false, [], [], []⟩)],
          ⟨42, [⟨1, 7, 9, 42, none⟩]⟩⟩, .authorNotBot)) ∧
    (∀ vw msg, lookupView [(5, ⟨5, 1, false, [], [], []⟩)] 5 = some vw →
      vw.guild_id = 1 →
      get_message (⟨42, [⟨1, 7, 9, 42, none⟩]⟩ : Platform) 1 7 9 = some msg →
      msg.author_id = 42 →
      (message_attach
        ⟨[⟨5, 1, false, [], [], []⟩], [(5, ⟨5, 1, false, [], [], []⟩)],
          ⟨42, [⟨1, 7, 9, 42, none⟩]⟩⟩ ⟨1, 3⟩ 7 9 5).1.db =
        add_message [⟨5, 1, false, [], [], []⟩] vw.idx 7 9 ∧
      (message_attach
        ⟨[⟨5, 1, false, [], [], []⟩], [(5, ⟨5, 1, false, [], [], []⟩)],
          ⟨42, [⟨1, 7, 9, 42, none⟩]⟩⟩ ⟨1, 3⟩ 7 9 5).2 = .attached vw.idx 9 ∧
      ∀ w ∈ [(⟨5, 1, false, [], [], []⟩ : RBView)], w.idx = vw.idx →
        ∃ w' ∈ (message_attach
          ⟨[⟨5, 1, false, [], [], []⟩], [(5, ⟨5, 1, false, [], [], []⟩)],
            ⟨42, [⟨1, 7, 9, 42, none⟩]⟩⟩ ⟨1, 3⟩ 7 9 5).1.db,
          w'.idx = vw.idx ∧ (⟨7, 9⟩ : RBMessage) ∈ w'.messages) :=
  C7_attach_guards
    ⟨[⟨5, 1, false, [], [], []⟩], [(5, ⟨5, 1, false, [], [], []⟩)],
      ⟨42, [⟨1, 7, 9, 42, none⟩]⟩⟩ ⟨1, 3⟩ 7 7 9 5 (by decide)

theorem lookupView_map_pair_append {l : List RBView} {nid : Nat}
    (h : ∀ v ∈ l, v.idx ≠ nid) (w : RBView) (hw : w.idx = nid) :
    lookupView ((l ++ [w]).map (fun v => (v.idx, v))) nid = some w := by
  induction l with
  | nil =>
    simp only [List.nil_append, List.map_cons, List.map_nil, lookupView]
    rw [List.find?_cons_of_pos _ (by simpa using hw)]
    rfl
  | cons v t ih =>
    simp only [List.cons_append, List.map_cons, lookupView]
    rw [@List.find?_cons_of_neg _ (fun e => e.1 == nid) (v.idx, v) _
      (by simpa using h v (List.mem_cons_self _ _))]
    exact ih (fun x hx => h x (List.mem_cons_of_mem _ hx))

/-- C9: the create command does not touch the registry of rendering handles,
so a freshly created View is not loaded: until the next reconciliation every
attach naming it reports "not loaded" and changes nothing; after a
`load_views` run the new View is registered. -/
theorem C9_created_view_not_loaded (st : CogState) (guild : Nat) (uq : Bool)
    (newIdx : Nat) (ctx : Ctx) (ch mi : Nat)
    (hreg : lookupView st.views newIdx = none)
    (hdb : ∀ v ∈ st.db, v.idx ≠ newIdx) :
    (rolebuttons_create st guild uq newIdx).1.views = st.views ∧
    message_attach (rolebuttons_create st guild uq newIdx).1 ctx ch mi newIdx =
      ((rolebuttons_create st guild uq newIdx).1, .notLoaded newIdx) ∧
    lookupView (load_views (rolebuttons_create st guild uq newIdx).1).1.views newIdx =
      some ⟨newIdx, guild, uq, [], [], []⟩ := by
  refine ⟨rfl, ?_, ?_⟩
  · simp [message_attach, rolebuttons_create, hreg]
  · show lookupView (loadLoop (st.db ++ [⟨newIdx, guild, uq, [], [], []⟩]) [] _ []).1
      newIdx = _
    rw [views_loadLoop, List.nil_append]
    exact lookupView_map_pair_append hdb _ rfl

/-- Witness for C9 at a concrete input: empty registry and a database
holding one unrelated view. -/
theorem C9_created_view_not_loaded_witness :
    (rolebuttons_create ⟨[⟨5, 1, false, [], [], []⟩], [], ⟨42, []⟩⟩ 1 true 6).1.views
      = [] ∧
    message_attach
      (rolebuttons_create ⟨[⟨5, 1, false, [], [], []⟩], [], ⟨42, []⟩⟩ 1 true 6).1
      ⟨1, 3⟩ 7 9 6 =
      ((rolebuttons_create ⟨[⟨5, 1, false, [], [], []⟩], [], ⟨42, []⟩⟩ 1 true 6).1,
        .notLoaded 6) ∧
    lookupView
      (load_views
        (rolebuttons_create ⟨[⟨5, 1, false, [], [], []⟩], [], ⟨42, []⟩⟩ 1 true 6).1).1.views
      6 = some ⟨6, 1, true, [], [], []⟩ :=
  C9_created_view_not_loaded ⟨[⟨5, 1, false, [], [], []⟩], [], ⟨42, []⟩⟩ 1 true 6
    ⟨1, 3⟩ 7 9 (by decide) (by decide)

/-- C10: the restriction remove command selects by role id alone, ignoring
the ALLOW/DISALLOW type: with the View present, a missing role id reports
not-found with no change, and otherwise exactly the first restriction whose
`role_id` matches is removed (one removal per call, every surviving
restriction was already there); concretely, on a View carrying both an ALLOW
and a DISALLOW restriction for role 7, one call removes the ALLOW one (the
first) and leaves the DISALLOW one in place. -/
theorem C10_restriction_remove_by_role (st : CogState) (guild vid : Nat)
    (role : RoleArg) (view : RBView) (hview : RBView.get st.db guild vid = some view) :
    (view.restrictions.find? (fun r => r.role_id == roleArgId role) = none →
      restriction_remove st guild vid role = (st, .restrictionNotFound vid)) ∧
    (∀ r0, view.restrictions.find? (fun r => r.role_id == roleArgId role) = some r0 →
      (restriction_remove st guild vid role).2 = .restrictionRemoved vid ∧
      ∃ v' ∈ (restriction_remove st guild vid role).1.db,
        v'.idx = view.idx ∧
        v'.restrictions =
          eraseFirstP (fun r => r.role_id == roleArgId role) view.restrictions ∧
        v'.restrictions.length + 1 = view.restrictions.length ∧
        ∀ x ∈ v'.restrictions, x ∈ view.restrictions) ∧
    restriction_remove
        ⟨[⟨8, 1, false, [],
          [⟨7, RestrictionType.ALLOW⟩, ⟨7, RestrictionType.DISALLOW⟩], []⟩],
          [], ⟨42, []⟩⟩ 1 8 (.role 7) =
      (⟨[⟨8, 1, false, [], [⟨7, RestrictionType.DISALLOW⟩], []⟩], [], ⟨42, []⟩⟩,
        .restrictionRemoved 8) := by
  refine ⟨?_, ?_, by decide⟩
  · intro hnone
    simp [restriction_remove, hview, hnone]
  · intro r0 hr0
    refine ⟨by simp [restriction_remove, hview, hr0], ?_⟩
    refine ⟨{ view with
              restrictions :=
                eraseFirstP (fun r => r.role_id == roleArgId role) view.restrictions },
      ?_, rfl, rfl, length_eraseFirstP hr0, fun x hx => mem_of_mem_eraseFirstP hx⟩
    have hmem : view ∈ st.db := by
      rw [RBView.get] at hview
      exact List.mem_of_find?_eq_some hview
    have : (restriction_remove st guild vid role).1.db =
        st.db.map (fun w =>
          if w.idx == view.idx then
            { w with restrictions :=
                eraseFirstP (fun r => r.role_id == roleArgId role) w.restrictions }
          else w) := by
      simp [restriction_remove, hview, hr0]
    rw [this]
    refine List.mem_map.mpr ⟨view, hmem, ?_⟩
    rw [if_pos (by simp)]

/-- Witness for C10 at a concrete input: the both-types View of the
statement, removing role 7. -/
theorem C10_restriction_remove_by_role_witness :
    ((⟨8, 1, false, [],
        [⟨7, RestrictionType.ALLOW⟩, ⟨7, RestrictionType.DISALLOW⟩],
        []⟩ : RBView).restrictions.find? (fun r => r.role_id == roleArgId (.role 7)) =
          none →
      restriction_remove
        ⟨[⟨8, 1, false, [],
          [⟨7, RestrictionType.ALLOW⟩, ⟨7, RestrictionType.DISALLOW⟩], []⟩],
          [], ⟨42, []⟩⟩ 1 8 (.role 7) =
        (⟨[⟨8, 1, false, [],
          [⟨7, RestrictionType.ALLOW⟩, ⟨7, RestrictionType.DISALLOW⟩], []⟩],
          [], ⟨42, []⟩⟩, .restrictionNotFound 8)) ∧
    (∀ r0, (⟨8, 1, false, [],
        [⟨7, RestrictionType.ALLOW⟩, ⟨7, RestrictionType.DISALLOW⟩],
        []⟩ : RBView).restrictions.find? (fun r => r.role_id == roleArgId (.role 7)) =
          some r0 →
      (restriction_remove
        ⟨[⟨8, 1, false, [],
          [⟨7, RestrictionType.ALLOW⟩, ⟨7, RestrictionType.DISALLOW⟩], []⟩],
          [], ⟨42, []⟩⟩ 1 8 (.role 7)).2 = .restrictionRemoved 8 ∧
      ∃ v' ∈ (restriction_remove
        ⟨[⟨8, 1, false, [],
          [⟨7, RestrictionType.ALLOW⟩, ⟨7, RestrictionType.DISALLOW⟩], []⟩],
          [], ⟨42, []⟩⟩ 1 8 (.role 7)).1.db,
        v'.idx = (⟨8, 1, false, [],
          [⟨7, RestrictionType.ALLOW⟩, ⟨7, RestrictionType.DISALLOW⟩],
          []⟩ : RBView).idx ∧
        v'.restrictions = eraseFirstP (fun r => r.role_id == roleArgId (.role 7))
          [⟨7, RestrictionType.ALLOW⟩, ⟨7, RestrictionType.DISALLOW⟩] ∧
        v'.restrictions.length + 1 =
          ([⟨7, RestrictionType.ALLOW⟩,
            ⟨7, RestrictionType.DISALLOW⟩] : List RBRestriction).length ∧
        ∀ x ∈ v'.restrictions,
          x ∈ ([⟨7, RestrictionType.ALLOW⟩,
            ⟨7, RestrictionType.DISALLOW⟩] : List RBRestriction)) ∧
    restriction_remove
        ⟨[⟨8, 1, false, [],
          [⟨7, RestrictionType.ALLOW⟩, ⟨7, RestrictionType.DISALLOW⟩], []⟩],
          [], ⟨42, []⟩⟩ 1 8 (.role 7) =
      (⟨[⟨8, 1, false, [], [⟨7, RestrictionType.DISALLOW⟩], []⟩], [], ⟨42, []⟩⟩,
        .restrictionRemoved 8) :=
  C10_restriction_remove_by_role
    ⟨[⟨8, 1, false, [],
      [⟨7, RestrictionType.ALLOW⟩, ⟨7, RestrictionType.DISALLOW⟩], []⟩],
      [], ⟨42, []⟩⟩ 1 8 (.role 7)
    ⟨8, 1, false, [],
      [⟨7, RestrictionType.ALLOW⟩, ⟨7, RestrictionType.DISALLOW⟩], []⟩ (by decide)

/-- C8 (code behavior at the failing input): with the referenced Option
absent, the item delete command evaluates `dc_item.id` while formatting its
not-found reply; for a plain integer argument this raises `AttributeError`
and no not-found outcome reaches the caller, while for a role argument the
reply is delivered but carries the role's id (7) in place of the option id
(5).  The option edit command, by contrast, reports not-found with the
option id and no side effect. -/
theorem C8_item_remove_absent_option :
    rolebuttons_item_remove ⟨[], [], ⟨42, []⟩⟩ ⟨1, [], []⟩ 5 (.intArg 123) (some true) =
      .error .attributeError ∧
    rolebuttons_item_remove ⟨[], [], ⟨42, []⟩⟩ ⟨1, [], []⟩ 5 (.role 7) (some true) =
      .ok (⟨[], [], ⟨42, []⟩⟩, .optionNotFound 7) ∧
    rolebuttons_option_edit ⟨[], [], ⟨42, []⟩⟩ 1 5 "L" none none =
      (⟨[], [], ⟨42, []⟩⟩, .optionNotFound 5) :=
  ⟨rfl, rfl, rfl⟩

end RB
